import Mathlib

/-!
Shallow embedding of the entry-lifecycle and community-verification core of
the Kolokwa_connect repository: the `dictionary` and `gamification` Django
apps.  Pure data is translated to Lean structures; the database is explicit
state threaded through the operations.  Ledger tables are lists (rows in
insertion order) and per-user rows are total functions from user ids, so a
missing row is represented by the default row.  Timestamps are natural
numbers counting days; Django `IntegerField`s that can go negative are `Int`.
-/

namespace Kolokwa

abbrev UserId := Nat

/-- One row of `gamification.models.PointTransaction`: user, signed point
delta, transaction-type tag and description (`created_at` omitted). -/
structure Tx where
  user : UserId
  points : Int
  ttype : String
  description : String
deriving DecidableEq, Repr

/-- `gamification.models.Badge` reference data.  The three `*_required`
fields default to 0, and `badge_type` is one of
contribution/verification/streak/special. -/
structure Badge where
  id : Nat
  name : String
  badge_type : String
  points_required : Nat
  contributions_required : Nat
  verifications_required : Nat
deriving DecidableEq, Repr

/-- The denormalized counters carried by the custom user model
(`users.models`): materialized `points` balance plus contribution and
verification counters, and the join date (in days) used by the
early-adopter special badge. -/
structure UserState where
  points : Int
  contributions_count : Nat
  verifications_count : Nat
  date_joined : Nat
deriving DecidableEq, Repr

/-- `gamification.models.UserStreak` (the loosely-coupled daily-challenge
pointers are omitted; dates are day numbers). -/
structure Streak where
  current_streak : Nat
  longest_streak : Nat
  last_contribution_date : Option Nat
deriving DecidableEq, Repr

/-- The shared relational store seen by the gamification app.  `users` and
`streaks` are total maps (a user without a `UserStreak` row maps to the
`get_or_create` default row).  `popularEntries u` abstracts the
`KoloquaEntry.objects.filter(contributor=u, upvotes__gte=10).count()`
query of the popular-contributor special badge.  `evalPasses` is a ghost
counter incremented once per entered `check_and_award_badges` pass, used to
state termination/recursion-guard facts. -/
structure GState where
  users : UserId → UserState
  transactions : List Tx
  userBadges : List (UserId × Nat)
  badges : List Badge
  streaks : UserId → Streak
  popularEntries : UserId → Nat
  today : Nat
  evalPasses : Nat

/-- Point update of a single user row. -/
def updUser (us : UserId → UserState) (u : UserId) (f : UserState → UserState) :
    UserId → UserState :=
  fun v => if v = u then f (us v) else us v

/-- `PointTransaction.save` for a new row: insert the ledger row and add its
points to the user's materialized balance (`user.points = F('points') +
self.points`); the derived `update_level` recomputation carries no state the
claims mention and is omitted. -/
def addTransaction (g : GState) (u : UserId) (pts : Int) (ttype desc : String) :
    GState :=
  { g with
    transactions := g.transactions ++ [⟨u, pts, ttype, desc⟩],
    users := updUser g.users u (fun us => { us with points := us.points + pts }) }

/-- Python's `pat in s` substring test. -/
def strContains (s pat : String) : Bool :=
  (s.splitOn pat).length != 1

/-- `gamification.utils.check_special_badge_criteria`: dispatch on the
lowercased badge name.  The streak-master branch reads the user's streak row
(`first()` of a filter; the default row with `longest_streak = 0` coincides
with the `None` case), early-adopter compares `date_joined` with a cutoff one
year before now, popular-contributor counts the user's entries with at least
10 upvotes. -/
def checkSpecialBadgeCriteria (g : GState) (u : UserId) (b : Badge) : Bool :=
  let n := b.name.toLower
  if strContains n "first contribution" then
    (g.users u).contributions_count ≥ 1
  else if strContains n "helpful verifier" then
    (g.users u).verifications_count ≥ 10
  else if strContains n "community hero" then
    (g.users u).contributions_count ≥ 5 && (g.users u).verifications_count ≥ 20
  else if strContains n "streak master" then
    (g.streaks u).longest_streak ≥ 30
  else if strContains n "early adopter" then
    (g.users u).date_joined + 365 ≤ g.today
  else if strContains n "popular contributor" then
    g.popularEntries u ≥ 3
  else
    false

/-- The per-badge `earned` check of `check_and_award_badges` (utils.py
144-163): an `if`/`elif` chain over the points, contributions and
verifications thresholds, then the special-badge predicate. -/
def badgeEarned (g : GState) (u : UserId) (b : Badge) : Bool :=
  if b.points_required > 0 && decide ((b.points_required : Int) ≤ (g.users u).points) then
    true
  else if b.contributions_required > 0 && b.contributions_required ≤ (g.users u).contributions_count then
    true
  else if b.verifications_required > 0 && b.verifications_required ≤ (g.users u).verifications_count then
    true
  else if b.badge_type == "special" then
    checkSpecialBadgeCriteria g u b
  else
    false

/-- `max(badge.points_required // 10, 5)`. -/
def badgeBonus (b : Badge) : Nat :=
  max (b.points_required / 10) 5

/-- Loop body of `check_and_award_badges` for one available badge: when the
badge is earned, create the `UserBadge` row, create the `achievement`
`PointTransaction` (whose `save` already adds the bonus to the balance), and
then apply the additional explicit `user.points = F('points') + bonus_points`
update the source performs right after. -/
def awardBadge (g : GState) (u : UserId) (b : Badge) : GState :=
  if badgeEarned g u b then
    let bonus : Int := (badgeBonus b : Nat)
    let g1 := { g with userBadges := g.userBadges ++ [(u, b.id)] }
    let g2 := addTransaction g1 u bonus "achievement" ("Earned badge: " ++ b.name)
    { g2 with users := updUser g2.users u (fun us => { us with points := us.points + bonus }) }
  else
    g

/-- `gamification.utils.check_and_award_badges`: one pass over the badges the
user does not yet hold (computed up front), awarding each earned one.  The
ghost `evalPasses` counter records that a pass was entered. -/
def checkAndAwardBadges (g : GState) (u : UserId) : GState :=
  let g0 := { g with evalPasses := g.evalPasses + 1 }
  let held := (g0.userBadges.filter (fun p => p.1 == u)).map Prod.snd
  let avail := g0.badges.filter (fun b => !(held.contains b.id))
  avail.foldl (fun s b => awardBadge s u b) g0

/-- `gamification.utils.award_points`: no-op on a zero delta; otherwise
create the transaction (which updates the balance), bump the matching user
counter for `contribution`/`verification` types, and run the badge evaluator
unless the type is `achievement` (recursion guard). -/
def awardPoints (g : GState) (u : UserId) (pts : Int) (ttype desc : String) :
    GState :=
  if pts = 0 then g
  else
    let g1 := addTransaction g u pts ttype desc
    let g2 :=
      if ttype == "contribution" then
        { g1 with users := updUser g1.users u (fun us =>
            { us with contributions_count := us.contributions_count + 1 }) }
      else if ttype == "verification" then
        { g1 with users := updUser g1.users u (fun us =>
            { us with verifications_count := us.verifications_count + 1 }) }
      else g1
    if ttype == "achievement" then g2 else checkAndAwardBadges g2 u

/-- `UserStreak.update_streak`: day-difference dispatch against today.  The
difference is taken in `Int` as Python subtracts dates. -/
def updateStreak (st : Streak) (today : Nat) : Streak :=
  match st.last_contribution_date with
  | some last =>
      let d : Int := (today : Int) - (last : Int)
      if d = 0 then st
      else
        let cur := if d = 1 then st.current_streak + 1 else 1
        { current_streak := cur,
          longest_streak := max st.longest_streak cur,
          last_contribution_date := some today }
  | none =>
      { current_streak := 1,
        longest_streak := max st.longest_streak 1,
        last_contribution_date := some today }

/-- `gamification.utils.update_user_streak`: `get_or_create` the streak row,
run `update_streak`, then pay the weekly bonus whenever the (post-update)
current streak is a positive multiple of seven. -/
def updateUserStreak (g : GState) (u : UserId) : GState :=
  let st := updateStreak (g.streaks u) g.today
  let g1 := { g with streaks := fun v => if v = u then st else g.streaks v }
  if st.current_streak > 0 && st.current_streak % 7 == 0 then
    awardPoints g1 u (st.current_streak * 2) "achievement"
      (toString st.current_streak ++ " day streak bonus!")
  else
    g1

/-- `dictionary.models.KoloquaEntry` restricted to the fields the
verification/vote core reads and writes (text fields other than
`koloqua_text`, categories, embedding and audio are presentation data the
core never branches on).  `verified_at` is an optional day number. -/
structure Entry where
  koloqua_text : String
  contributor : UserId
  status : String
  verification_count : Nat
  upvotes : Int
  downvotes : Int
  verified_at : Option Nat
deriving DecidableEq, Repr

/-- The state touched by the vote/verification views for one entry: the
entry row, its `EntryVote` rows (voter, vote_type) and `EntryVerification`
rows (verifier, verification_type, comments) in insertion order, and the
gamification store. -/
structure VState where
  entry : Entry
  votes : List (UserId × Int)
  verifications : List (UserId × String × String)
  g : GState

def lookupVote (votes : List (UserId × Int)) (u : UserId) : Option Int :=
  (votes.find? (fun p => p.1 == u)).map Prod.snd

/-- `EntryVoteView.post` (dictionary/views.py 292-387) after input
validation, for `vt ∈ {1, -1}`.  Creating a vote runs `EntryVote.save`,
which increments the matching counter; changing a vote runs the
counter-swap branch of `EntryVote.save`; toggling off runs `vote.delete()`,
for which no counter adjustment exists anywhere (no delete override, no
signal, none in the view). -/
def castVote (s : VState) (voter : UserId) (vt : Int) : VState :=
  match lookupVote s.votes voter with
  | some old =>
      if old = vt then
        let s1 := { s with votes := s.votes.filter (fun p => !(p.1 == voter)) }
        if s1.entry.contributor = voter then s1
        else
          { s1 with g := (awardPoints s1.g s1.entry.contributor (-vt) "vote_removed"
              ("Vote removed for your entry: " ++ s1.entry.koloqua_text)) }
      else
        let votes := s.votes.map (fun p => if p.1 == voter then (voter, vt) else p)
        let e :=
          if old = 1 then
            { s.entry with upvotes := s.entry.upvotes - 1, downvotes := s.entry.downvotes + 1 }
          else
            { s.entry with downvotes := s.entry.downvotes - 1, upvotes := s.entry.upvotes + 1 }
        let s1 := { s with votes := votes, entry := e }
        if s1.entry.contributor = voter then s1
        else
          { s1 with g := (awardPoints s1.g s1.entry.contributor (vt - old) "vote_changed"
              ("Vote changed for your entry: " ++ s1.entry.koloqua_text)) }
  | none =>
      let e :=
        if vt = 1 then { s.entry with upvotes := s.entry.upvotes + 1 }
        else { s.entry with downvotes := s.entry.downvotes + 1 }
      let s1 := { s with votes := s.votes ++ [(voter, vt)], entry := e }
      let s2 := { s1 with g := (awardPoints s1.g voter 1 "vote"
          ("Voted on entry: " ++ s1.entry.koloqua_text)) }
      if s2.entry.contributor = voter then s2
      else
        { s2 with g := (awardPoints s2.g s2.entry.contributor vt "vote_received"
            ("Your entry received a vote: " ++ s2.entry.koloqua_text)) }

def upvoteRows (votes : List (UserId × Int)) : Nat :=
  (votes.filter (fun p => p.2 == 1)).length

def downvoteRows (votes : List (UserId × Int)) : Nat :=
  (votes.filter (fun p => p.2 == -1)).length

def accurateCount (vs : List (UserId × String × String)) : Nat :=
  (vs.filter (fun p => p.2.1 == "accurate")).length

def incorrectCount (vs : List (UserId × String × String)) : Nat :=
  (vs.filter (fun p => p.2.1 == "incorrect")).length

/-- `EntryVerification.objects.update_or_create(entry, verifier, defaults)`:
overwrite the unique (entry, verifier) row if present, else insert it. -/
def upsertVerification (vs : List (UserId × String × String)) (u : UserId)
    (vt cm : String) : List (UserId × String × String) :=
  if (vs.find? (fun p => p.1 == u)).isSome then
    vs.map (fun p => if p.1 == u then (u, vt, cm) else p)
  else
    vs ++ [(u, vt, cm)]

inductive VerifyResult where
  | selfError
  | invalidType
  | ok (message : String)
deriving DecidableEq, Repr

/-- Sum of ledger points for one user. -/
def ledgerSum (g : GState) (u : UserId) : Int :=
  ((g.transactions.filter (fun tx => tx.user == u)).map Tx.points).sum

/-- `EntryVerifyView.post` (dictionary/views.py 389-469); the API action
`KoloquaEntryViewSet.verify` mirrors it with other message strings.
Order of effects follows the source: self-verification guard, classification
guard, upsert of the verification row, recomputation of
`entry.verification_count` from the accurate rows, then the classification
branch.  The verified transition saves the entry with the new status but
sets no `verified_at` (the view never assigns it; `KoloquaEntry.verify`,
which would, is not called), and then runs
`gamification.utils.handle_entry_verification`; the rejected branch runs
`handle_entry_rejection`.  This is the body after the two guards, split out
for the branch lemmas below. -/
def submitVerificationCore (s : VState) (verifier : UserId) (vt cm : String) :
    VState × VerifyResult :=
  let verifs := upsertVerification s.verifications verifier vt cm
    let vcount := accurateCount verifs
    if vt == "accurate" then
      if vcount ≥ 3 && s.entry.status == "pending" then
        let e := { s.entry with verification_count := vcount, status := "verified" }
        let g1 := awardPoints s.g verifier 5 "verification"
          ("Verified entry: " ++ e.koloqua_text)
        let g2 := awardPoints g1 e.contributor 10 "contribution_verified"
          ("Entry verified: " ++ e.koloqua_text)
        let g3 := updateUserStreak g2 e.contributor
        ({ s with entry := e, verifications := verifs, g := g3 },
         .ok "Entry has been verified!")
      else
        let e := { s.entry with verification_count := vcount }
        let g1 := awardPoints s.g verifier 3 "verification"
          ("Verified entry: " ++ e.koloqua_text)
        let g2 := awardPoints g1 e.contributor 2 "verification_received"
          ("Your entry received verification: " ++ e.koloqua_text)
        ({ s with entry := e, verifications := verifs, g := g2 },
         .ok "Thank you for your verification!")
    else if vt == "incorrect" then
      if incorrectCount verifs ≥ 2 then
        let e := { s.entry with verification_count := vcount, status := "rejected" }
        let g1 := awardPoints s.g verifier 2 "verification"
          ("Reviewed entry: " ++ e.koloqua_text)
        ({ s with entry := e, verifications := verifs, g := g1 },
         .ok "Entry has been rejected due to multiple negative verifications.")
      else
        let e := { s.entry with verification_count := vcount }
        let g1 := awardPoints s.g verifier 2 "verification"
          ("Reviewed entry: " ++ e.koloqua_text)
        ({ s with entry := e, verifications := verifs, g := g1 },
         .ok "Thank you for your verification!")
    else
      let e := { s.entry with verification_count := vcount }
      let g1 := awardPoints s.g verifier 2 "verification"
        ("Reviewed entry: " ++ e.koloqua_text)
      ({ s with entry := e, verifications := verifs, g := g1 },
       .ok "Thank you for your verification!")

/-- `EntryVerifyView.post` in full: the self-verification guard and the
classification guard precede the body. -/
def submitVerification (s : VState) (verifier : UserId) (vt cm : String) :
    VState × VerifyResult :=
  if verifier = s.entry.contributor then (s, .selfError)
  else if !(vt == "accurate" || vt == "needs_revision" || vt == "incorrect") then
    (s, .invalidType)
  else
    submitVerificationCore s verifier vt cm

/-- One verification request. -/
structure VOp where
  verifier : UserId
  vtype : String
  comments : String

def stepVerify (s : VState) (op : VOp) : VState :=
  (submitVerification s op.verifier op.vtype op.comments).1

def runVerifs (s : VState) (ops : List VOp) : VState :=
  ops.foldl stepVerify s

/-! Concrete fixtures used to evaluate the model on small inputs. -/

/-- A fresh user row (0 points, no counters). -/
def freshUser : UserState := ⟨0, 0, 0, 0⟩

/-- An empty store with no badges. -/
def emptyG : GState :=
  ⟨fun _ => freshUser, [], [], [], fun _ => ⟨0, 0, none⟩, fun _ => 0, 1000, 0⟩

/-- The "First Steps" sample badge (`create_sample_badges`): earned at one
contribution, no points requirement. -/
def firstSteps : Badge := ⟨1, "First Steps", "contribution", 0, 1, 0⟩

/-- Store whose only badge is `firstSteps`. -/
def gFirstSteps : GState := { emptyG with badges := [firstSteps] }

/-- A freshly submitted pending entry contributed by user 0. -/
def freshEntry : Entry := ⟨"kolo", 0, "pending", 0, 0, 0, none⟩

def freshV : VState := ⟨freshEntry, [], [], emptyG⟩

/-- `freshV` with the entry already in `verified` status. -/
def verifiedV : VState := ⟨{ freshEntry with status := "verified" }, [], [], emptyG⟩

/-- Store where user streaks read 7/7 with the last contribution today
(today = day 10). -/
def gStreak7 : GState := { emptyG with streaks := fun _ => ⟨7, 7, some 10⟩, today := 10 }

/-- Store where user streaks read 3/3 with the last contribution yesterday
(today = day 10). -/
def gStreak3 : GState := { emptyG with streaks := fun _ => ⟨3, 3, some 9⟩, today := 10 }

/-- The trigger condition of the `pending → verified` transition as executed
by `EntryVerifyView.post`: the submission is a valid accurate verification by
a non-contributor and brings the recomputed accurate count to the threshold 3
while the entry is still pending. -/
def fireVerify (s : VState) (op : VOp) : Prop :=
  s.entry.status = "pending" ∧ op.vtype = "accurate" ∧
  op.verifier ≠ s.entry.contributor ∧
  3 ≤ accurateCount (upsertVerification s.verifications op.verifier op.vtype op.comments)

/-- The entry is in `verified` status at some point while `ops` are applied. -/
def reachesVerified (s : VState) (ops : List VOp) : Prop :=
  ∃ i, i ≤ ops.length ∧ (runVerifs s (ops.take i)).entry.status = "verified"

/-- C1: the conservation invariant fails at a badge grant.  Awarding 2
`contribution` points to a fresh user who thereby earns the First Steps
badge leaves a stored balance of 12 while the ledger rows sum to 7: the 5
bonus points are added to the balance twice (once by `PointTransaction.save`
and once by the explicit `F('points')` update in `check_and_award_badges`)
but recorded once. -/
theorem award_points_badge_grant_breaks_conservation :
    ((awardPoints gFirstSteps 7 2 "contribution" "d").users 7).points = 12 ∧
    ledgerSum (awardPoints gFirstSteps 7 2 "contribution" "d") 7 = 7 := by
  decide

/-- C2: after user 1 upvotes the fresh entry and then clicks upvote again
(toggle-off), the vote row is deleted but `upvotes` still reads 1, so the
counter no longer equals the number of +1 vote rows. -/
theorem vote_toggle_off_leaves_stale_counter :
    (castVote (castVote freshV 1 1) 1 1).votes = [] ∧
    (castVote (castVote freshV 1 1) 1 1).entry.upvotes = 1 ∧
    upvoteRows (castVote (castVote freshV 1 1) 1 1).votes = 0 := by
  decide

/-- C6: three accurate verifications by users 1, 2, 3 drive the fresh
pending entry to `verified`, yet `verified_at` is still null — the views
performing the transition never assign it. -/
theorem verified_entry_has_null_verified_at :
    (runVerifs freshV [⟨1, "accurate", ""⟩, ⟨2, "accurate", ""⟩, ⟨3, "accurate", ""⟩]).entry.status
      = "verified" ∧
    (runVerifs freshV [⟨1, "accurate", ""⟩, ⟨2, "accurate", ""⟩, ⟨3, "accurate", ""⟩]).entry.verified_at
      = none := by
  decide

/-- C8: a contributor submitting a verification on their own entry receives
the self-verification domain error and the state is returned untouched: no
verification row, no points, no status or counter change. -/
theorem self_verification_rejected_unchanged (s : VState) (vt cm : String) :
    submitVerification s s.entry.contributor vt cm = (s, VerifyResult.selfError) := by
  simp [submitVerification]

/-! Structure lemmas about the badge pass and `awardPoints`. -/

theorem awardBadge_earned_eq (g : GState) (u : UserId) (b : Badge)
    (hb : badgeEarned g u b = true) :
    awardBadge g u b =
      { g with
        userBadges := g.userBadges ++ [(u, b.id)],
        transactions := g.transactions ++
          [⟨u, (badgeBonus b : Int), "achievement", "Earned badge: " ++ b.name⟩],
        users := updUser g.users u (fun us =>
          { us with points := us.points + (badgeBonus b : Int) + (badgeBonus b : Int) }) } := by
  simp only [awardBadge, hb, if_true, addTransaction]
  refine congrArg (fun f : UserId → UserState => { g with
    userBadges := g.userBadges ++ [(u, b.id)],
    transactions := g.transactions ++
      ([⟨u, (badgeBonus b : Int), "achievement", "Earned badge: " ++ b.name⟩] : List Tx),
    users := f }) ?_
  funext v
  simp only [updUser]
  by_cases hv : v = u <;> simp [hv]

theorem awardBadge_not_earned (g : GState) (u : UserId) (b : Badge)
    (hb : ¬ badgeEarned g u b = true) :
    awardBadge g u b = g := by
  simp [awardBadge, hb]

theorem foldAwardBadges_spec (bs : List Badge) (g : GState) (u : UserId) :
    ∃ txs : List Tx,
      (bs.foldl (fun s b => awardBadge s u b) g).transactions = g.transactions ++ txs ∧
      (∀ tx ∈ txs, tx.user = u ∧ tx.ttype = "achievement" ∧ 0 < tx.points) ∧
      ((bs.foldl (fun s b => awardBadge s u b) g).users u).points
        = (g.users u).points + 2 * (txs.map Tx.points).sum ∧
      (∀ v, v ≠ u → (bs.foldl (fun s b => awardBadge s u b) g).users v = g.users v) ∧
      (bs.foldl (fun s b => awardBadge s u b) g).evalPasses = g.evalPasses ∧
      (bs.foldl (fun s b => awardBadge s u b) g).streaks = g.streaks := by
  induction bs generalizing g with
  | nil => exact ⟨[], by simp, by simp, by simp, fun v _ => rfl, rfl, rfl⟩
  | cons b bs ih =>
    simp only [List.foldl_cons]
    by_cases hb : badgeEarned g u b = true
    · obtain ⟨txs, h1, h2, h3, h4, h5, h6⟩ := ih (awardBadge g u b)
      refine ⟨⟨u, (badgeBonus b : Int), "achievement", "Earned badge: " ++ b.name⟩ :: txs,
        ?_, ?_, ?_, ?_, ?_, ?_⟩
      · rw [h1, awardBadge_earned_eq g u b hb]
        simp
      · intro tx htx
        rcases List.mem_cons.mp htx with h | h
        · subst h
          refine ⟨rfl, rfl, ?_⟩
          have hpos : 0 < badgeBonus b := lt_of_lt_of_le (by norm_num) (le_max_right _ 5)
          show (0 : Int) < ((badgeBonus b : Nat) : Int)
          exact_mod_cast hpos
        · exact h2 tx h
      · rw [h3, awardBadge_earned_eq g u b hb]
        simp only [updUser, eq_self_iff_true, if_true, ite_true, List.map_cons, List.sum_cons]
        try ring
      · intro v hv
        rw [h4 v hv, awardBadge_earned_eq g u b hb]
        simp [updUser, hv]
      · rw [h5, awardBadge_earned_eq g u b hb]
      · rw [h6, awardBadge_earned_eq g u b hb]
    · rw [awardBadge_not_earned g u b hb]
      exact ih g

theorem checkAndAwardBadges_spec (g : GState) (u : UserId) :
    ∃ txs : List Tx,
      (checkAndAwardBadges g u).transactions = g.transactions ++ txs ∧
      (∀ tx ∈ txs, tx.user = u ∧ tx.ttype = "achievement" ∧ 0 < tx.points) ∧
      ((checkAndAwardBadges g u).users u).points
        = (g.users u).points + 2 * (txs.map Tx.points).sum ∧
      (∀ v, v ≠ u → (checkAndAwardBadges g u).users v = g.users v) ∧
      (checkAndAwardBadges g u).evalPasses = g.evalPasses + 1 ∧
      (checkAndAwardBadges g u).streaks = g.streaks := by
  unfold checkAndAwardBadges
  exact foldAwardBadges_spec _ _ u

theorem awardPoints_zero (g : GState) (u : UserId) (t d : String) :
    awardPoints g u 0 t d = g := by
  simp [awardPoints]

theorem awardPoints_spec (g : GState) (u : UserId) (pts : Int) (t d : String)
    (h : pts ≠ 0) :
    ∃ txs : List Tx,
      (awardPoints g u pts t d).transactions
        = g.transactions ++ ⟨u, pts, t, d⟩ :: txs ∧
      (∀ tx ∈ txs, tx.user = u ∧ tx.ttype = "achievement" ∧ 0 < tx.points) ∧
      ((awardPoints g u pts t d).users u).points
        = (g.users u).points + pts + 2 * (txs.map Tx.points).sum ∧
      (∀ v, v ≠ u → (awardPoints g u pts t d).users v = g.users v) ∧
      (awardPoints g u pts t d).evalPasses
        = g.evalPasses + (if t = "achievement" then 0 else 1) ∧
      (t = "achievement" → txs = []) ∧
      (awardPoints g u pts t d).streaks = g.streaks := by
  have key : ∀ g2 : GState, t ≠ "achievement" →
      g2.transactions = g.transactions ++ [⟨u, pts, t, d⟩] →
      (g2.users u).points = (g.users u).points + pts →
      (∀ v, v ≠ u → g2.users v = g.users v) →
      g2.evalPasses = g.evalPasses →
      g2.streaks = g.streaks →
      ∃ txs : List Tx,
        (checkAndAwardBadges g2 u).transactions
          = g.transactions ++ ⟨u, pts, t, d⟩ :: txs ∧
        (∀ tx ∈ txs, tx.user = u ∧ tx.ttype = "achievement" ∧ 0 < tx.points) ∧
        ((checkAndAwardBadges g2 u).users u).points
          = (g.users u).points + pts + 2 * (txs.map Tx.points).sum ∧
        (∀ v, v ≠ u → (checkAndAwardBadges g2 u).users v = g.users v) ∧
        (checkAndAwardBadges g2 u).evalPasses
          = g.evalPasses + (if t = "achievement" then 0 else 1) ∧
        (t = "achievement" → txs = []) ∧
        (checkAndAwardBadges g2 u).streaks = g.streaks := by
    intro g2 ha e1 e2 e3 e4 e5
    obtain ⟨txs, h1, h2, h3, h4, h5, h6⟩ := checkAndAwardBadges_spec g2 u
    refine ⟨txs, ?_, h2, ?_, ?_, ?_, fun hc => absurd hc ha, ?_⟩
    · rw [h1, e1, List.append_assoc]
      rfl
    · rw [h3, e2]
      try ring
    · intro v hv
      rw [h4 v hv, e3 v hv]
    · rw [h5, e4, if_neg ha]
    · rw [h6, e5]
  simp only [awardPoints, if_neg h]
  by_cases ha : t = "achievement"
  · subst ha
    simp only [show (("achievement" : String) == "contribution") = false by decide,
               show (("achievement" : String) == "verification") = false by decide,
               show (("achievement" : String) == "achievement") = true by decide,
               Bool.false_eq_true, if_false, if_true]
    refine ⟨[], by simp [addTransaction], by simp, ?_, ?_, by simp [addTransaction],
      fun _ => rfl, by simp [addTransaction]⟩
    · simp [addTransaction, updUser]
    · intro v hv
      simp [addTransaction, updUser, hv]
  · have ha2 : (t == "achievement") = false := beq_eq_false_iff_ne.mpr ha
    simp only [ha2, Bool.false_eq_true, if_false]
    by_cases hc : t = "contribution"
    · subst hc
      simp only [show (("contribution" : String) == "contribution") = true by decide, if_true]
      refine key _ (by decide) rfl ?_ ?_ rfl rfl
      · simp [addTransaction, updUser]
      · intro v hv
        simp [addTransaction, updUser, hv]
    · have hc2 : (t == "contribution") = false := beq_eq_false_iff_ne.mpr hc
      simp only [hc2, Bool.false_eq_true, if_false]
      by_cases hv : t = "verification"
      · subst hv
        simp only [show (("verification" : String) == "verification") = true by decide, if_true]
        refine key _ (by decide) rfl ?_ ?_ rfl rfl
        · simp [addTransaction, updUser]
        · intro v hvv
          simp [addTransaction, updUser, hvv]
      · have hv2 : (t == "verification") = false := beq_eq_false_iff_ne.mpr hv
        simp only [hv2, Bool.false_eq_true, if_false]
        refine key _ ha rfl ?_ ?_ rfl rfl
        · simp [addTransaction, updUser]
        · intro v hvv
          simp [addTransaction, updUser, hvv]

theorem awardPoints_transactions_le (g : GState) (u : UserId) (pts : Int)
    (t d : String) :
    g.transactions.length ≤ (awardPoints g u pts t d).transactions.length := by
  by_cases h : pts = 0
  · rw [h, awardPoints_zero]
  · obtain ⟨txs, h1, -, -, -, -, -, -⟩ := awardPoints_spec g u pts t d h
    rw [h1]
    simp

theorem awardPoints_transactions_lt (g : GState) (u : UserId) (pts : Int)
    (t d : String) (h : pts ≠ 0) :
    g.transactions.length < (awardPoints g u pts t d).transactions.length := by
  obtain ⟨txs, h1, -, -, -, -, -, -⟩ := awardPoints_spec g u pts t d h
  rw [h1]
  simp

theorem awardPoints_users_other (g : GState) (u : UserId) (pts : Int)
    (t d : String) (v : UserId) (hv : v ≠ u) :
    (awardPoints g u pts t d).users v = g.users v := by
  by_cases h : pts = 0
  · rw [h, awardPoints_zero]
  · obtain ⟨txs, -, -, -, h4, -, -, -⟩ := awardPoints_spec g u pts t d h
    exact h4 v hv

theorem awardPoints_points_gain (g : GState) (u : UserId) (pts : Int)
    (t d : String) (h : 0 < pts) :
    (g.users u).points < ((awardPoints g u pts t d).users u).points := by
  obtain ⟨txs, -, h2, h3, -, -, -, -⟩ := awardPoints_spec g u pts t d h.ne'
  rw [h3]
  have hsum : 0 ≤ (txs.map Tx.points).sum := by
    apply List.sum_nonneg
    intro x hx
    obtain ⟨tx, htx, rfl⟩ := List.mem_map.mp hx
    exact le_of_lt (h2 tx htx).2.2
  linarith

theorem updateUserStreak_transactions_le (g : GState) (u : UserId) :
    g.transactions.length ≤ (updateUserStreak g u).transactions.length := by
  simp only [updateUserStreak]
  split
  · show ({ g with streaks := fun v => if v = u then updateStreak (g.streaks u) g.today
        else g.streaks v } : GState).transactions.length ≤ _
    apply awardPoints_transactions_le
  · exact le_refl _

/-! Lemmas about `update_or_create` upserts of verification rows. -/

theorem upsert_mem_key (vs : List (UserId × String × String)) (u : UserId)
    (vt cm : String) :
    ∀ p ∈ upsertVerification vs u vt cm, p.1 = u → p = (u, vt, cm) := by
  intro p hp hpu
  unfold upsertVerification at hp
  split at hp
  · obtain ⟨q, hq, hqe⟩ := List.mem_map.mp hp
    by_cases hqu : (q.1 == u) = true
    · rw [if_pos hqu] at hqe
      exact hqe.symm
    · rw [if_neg hqu] at hqe
      subst hqe
      exact absurd (by simp [hpu]) hqu
  · rcases List.mem_append.mp hp with h | h
    · next hnone =>
      have := List.find?_eq_none.mp (by
        cases hfind : vs.find? (fun p => p.1 == u) with
        | none => rfl
        | some q => exact absurd (by rw [hfind]; rfl) hnone) p h
      exact absurd (by simpa using hpu) this
    · simpa using h

theorem upsert_find_some (vs : List (UserId × String × String)) (u : UserId)
    (vt cm : String) :
    ((upsertVerification vs u vt cm).find? (fun p => p.1 == u)).isSome = true := by
  rw [List.find?_isSome]
  refine ⟨(u, vt, cm), ?_, by simp⟩
  unfold upsertVerification
  split
  · next hsome =>
    rw [List.find?_isSome] at hsome
    obtain ⟨q, hq, hqp⟩ := hsome
    exact List.mem_map.mpr ⟨q, hq, by rw [if_pos hqp]⟩
  · exact List.mem_append.mpr (Or.inr (by simp))

theorem upsert_idem (vs : List (UserId × String × String)) (u : UserId)
    (vt cm : String) :
    upsertVerification (upsertVerification vs u vt cm) u vt cm
      = upsertVerification vs u vt cm := by
  rw [upsertVerification, if_pos (upsert_find_some vs u vt cm)]
  have : ∀ p ∈ upsertVerification vs u vt cm,
      (if (p.1 == u) = true then (u, vt, cm) else p) = p := by
    intro p hp
    by_cases hpu : (p.1 == u) = true
    · rw [if_pos hpu, upsert_mem_key vs u vt cm p hp (by simpa using hpu)]
    · rw [if_neg hpu]
  calc (upsertVerification vs u vt cm).map (fun p => if (p.1 == u) = true then (u, vt, cm) else p)
      = (upsertVerification vs u vt cm).map id := List.map_congr_left this
    _ = upsertVerification vs u vt cm := List.map_id _

/-! Branch characterization of the verification view. -/

theorem submit_self_eq (s : VState) (vt cm : String) :
    submitVerification s s.entry.contributor vt cm = (s, VerifyResult.selfError) := by
  simp [submitVerification]

theorem submit_valid_eq (s : VState) (verifier : UserId) (vt cm : String)
    (hne : verifier ≠ s.entry.contributor)
    (hvt : vt = "accurate" ∨ vt = "needs_revision" ∨ vt = "incorrect") :
    submitVerification s verifier vt cm = submitVerificationCore s verifier vt cm := by
  rw [submitVerification, if_neg hne, if_neg]
  simp only [Bool.not_eq_true', Bool.not_eq_false]
  rcases hvt with h | h | h <;> simp [h]

theorem core_verifications (s : VState) (verifier : UserId) (vt cm : String) :
    (submitVerificationCore s verifier vt cm).1.verifications
      = upsertVerification s.verifications verifier vt cm := by
  simp only [submitVerificationCore]
  split_ifs <;> rfl

theorem core_contributor (s : VState) (verifier : UserId) (vt cm : String) :
    (submitVerificationCore s verifier vt cm).1.entry.contributor
      = s.entry.contributor := by
  simp only [submitVerificationCore]
  split_ifs <;> rfl

theorem core_status (s : VState) (verifier : UserId) (vt cm : String) :
    (submitVerificationCore s verifier vt cm).1.entry.status =
      if vt = "accurate" then
        if 3 ≤ accurateCount (upsertVerification s.verifications verifier vt cm)
            ∧ s.entry.status = "pending" then "verified" else s.entry.status
      else if vt = "incorrect" then
        if 2 ≤ incorrectCount (upsertVerification s.verifications verifier vt cm)
          then "rejected" else s.entry.status
      else s.entry.status := by
  simp only [submitVerificationCore]
  split_ifs <;>
    simp_all [beq_iff_eq, Bool.and_eq_true, decide_eq_true_eq, ge_iff_le] <;>
    omega

theorem core_transactions_lt (s : VState) (verifier : UserId) (vt cm : String) :
    s.g.transactions.length
      < (submitVerificationCore s verifier vt cm).1.g.transactions.length := by
  simp only [submitVerificationCore]
  split_ifs
  · have h1 := awardPoints_transactions_lt s.g verifier 5 "verification"
      ("Verified entry: " ++ s.entry.koloqua_text) (by norm_num)
    have h2 := awardPoints_transactions_le
      (awardPoints s.g verifier 5 "verification" ("Verified entry: " ++ s.entry.koloqua_text))
      s.entry.contributor 10 "contribution_verified"
      ("Entry verified: " ++ s.entry.koloqua_text)
    have h3 := updateUserStreak_transactions_le
      (awardPoints
        (awardPoints s.g verifier 5 "verification" ("Verified entry: " ++ s.entry.koloqua_text))
        s.entry.contributor 10 "contribution_verified"
        ("Entry verified: " ++ s.entry.koloqua_text))
      s.entry.contributor
    exact lt_of_lt_of_le h1 (le_trans h2 h3)
  · have h1 := awardPoints_transactions_lt s.g verifier 3 "verification"
      ("Verified entry: " ++ s.entry.koloqua_text) (by norm_num)
    have h2 := awardPoints_transactions_le
      (awardPoints s.g verifier 3 "verification" ("Verified entry: " ++ s.entry.koloqua_text))
      s.entry.contributor 2 "verification_received"
      ("Your entry received verification: " ++ s.entry.koloqua_text)
    exact lt_of_lt_of_le h1 h2
  · exact awardPoints_transactions_lt s.g verifier 2 "verification"
      ("Reviewed entry: " ++ s.entry.koloqua_text) (by norm_num)
  · exact awardPoints_transactions_lt s.g verifier 2 "verification"
      ("Reviewed entry: " ++ s.entry.koloqua_text) (by norm_num)
  · exact awardPoints_transactions_lt s.g verifier 2 "verification"
      ("Reviewed entry: " ++ s.entry.koloqua_text) (by norm_num)

theorem awardPoints_streaks (g : GState) (u : UserId) (pts : Int) (t d : String) :
    (awardPoints g u pts t d).streaks = g.streaks := by
  by_cases h : pts = 0
  · rw [h, awardPoints_zero]
  · obtain ⟨txs, -, -, -, -, -, -, h7⟩ := awardPoints_spec g u pts t d h
    exact h7

theorem updateUserStreak_users_other (g : GState) (u : UserId) (v : UserId)
    (hv : v ≠ u) :
    (updateUserStreak g u).users v = g.users v := by
  simp only [updateUserStreak]
  split
  · exact awardPoints_users_other _ _ _ _ _ v hv
  · rfl

theorem updateUserStreak_streaks_self (g : GState) (u : UserId) :
    (updateUserStreak g u).streaks u = updateStreak (g.streaks u) g.today := by
  simp only [updateUserStreak]
  split
  · rw [awardPoints_streaks]
    simp
  · simp

theorem core_verifier_points_gain (s : VState) (verifier : UserId) (vt cm : String)
    (hne : verifier ≠ s.entry.contributor) :
    (s.g.users verifier).points
      < ((submitVerificationCore s verifier vt cm).1.g.users verifier).points := by
  simp only [submitVerificationCore]
  split_ifs
  · have h1 := awardPoints_points_gain s.g verifier 5 "verification"
      ("Verified entry: " ++ s.entry.koloqua_text) (by norm_num)
    have h2 := awardPoints_users_other
      (awardPoints s.g verifier 5 "verification" ("Verified entry: " ++ s.entry.koloqua_text))
      s.entry.contributor 10 "contribution_verified"
      ("Entry verified: " ++ s.entry.koloqua_text) verifier hne
    have h3 := updateUserStreak_users_other
      (awardPoints
        (awardPoints s.g verifier 5 "verification" ("Verified entry: " ++ s.entry.koloqua_text))
        s.entry.contributor 10 "contribution_verified"
        ("Entry verified: " ++ s.entry.koloqua_text))
      s.entry.contributor verifier hne
    rw [h3, h2]
    exact h1
  · have h1 := awardPoints_points_gain s.g verifier 3 "verification"
      ("Verified entry: " ++ s.entry.koloqua_text) (by norm_num)
    have h2 := awardPoints_users_other
      (awardPoints s.g verifier 3 "verification" ("Verified entry: " ++ s.entry.koloqua_text))
      s.entry.contributor 2 "verification_received"
      ("Your entry received verification: " ++ s.entry.koloqua_text) verifier hne
    rw [h2]
    exact h1
  · exact awardPoints_points_gain s.g verifier 2 "verification"
      ("Reviewed entry: " ++ s.entry.koloqua_text) (by norm_num)
  · exact awardPoints_points_gain s.g verifier 2 "verification"
      ("Reviewed entry: " ++ s.entry.koloqua_text) (by norm_num)
  · exact awardPoints_points_gain s.g verifier 2 "verification"
      ("Reviewed entry: " ++ s.entry.koloqua_text) (by norm_num)

/-- C3 counterexample: repeating an identical accurate verification is not a
no-op — the second call appends two more PointTransactions and raises the
verifier's balance from 3 to 6. -/
theorem submit_verification_repeat_grants_again :
    (submitVerification freshV 1 "accurate" "c").1.g.transactions.length = 2 ∧
    (submitVerification (submitVerification freshV 1 "accurate" "c").1
        1 "accurate" "c").1.g.transactions.length = 4 ∧
    ((submitVerification freshV 1 "accurate" "c").1.g.users 1).points = 3 ∧
    ((submitVerification (submitVerification freshV 1 "accurate" "c").1
        1 "accurate" "c").1.g.users 1).points = 6 := by
  decide

/-- C3 amended: a repeated identical `submit_verification` never re-triggers
a status transition and leaves the verification rows unchanged (upsert), but
it is not idempotent — it always appends further point transactions. -/
theorem submit_verification_repeat_characterization (s : VState)
    (verifier : UserId) (vt cm : String)
    (hne : verifier ≠ s.entry.contributor)
    (hvt : vt = "accurate" ∨ vt = "needs_revision" ∨ vt = "incorrect") :
    ((submitVerification (submitVerification s verifier vt cm).1
        verifier vt cm).1.entry.status
      = (submitVerification s verifier vt cm).1.entry.status) ∧
    ((submitVerification (submitVerification s verifier vt cm).1
        verifier vt cm).1.verifications
      = (submitVerification s verifier vt cm).1.verifications) ∧
    ((submitVerification s verifier vt cm).1.g.transactions.length
      < (submitVerification (submitVerification s verifier vt cm).1
          verifier vt cm).1.g.transactions.length) := by
  have hs1 : (submitVerification s verifier vt cm).1
      = (submitVerificationCore s verifier vt cm).1 := by
    rw [submit_valid_eq s verifier vt cm hne hvt]
  have hne1 : verifier ≠ (submitVerification s verifier vt cm).1.entry.contributor := by
    rw [hs1, core_contributor]
    exact hne
  have hs2 : (submitVerification (submitVerification s verifier vt cm).1 verifier vt cm).1
      = (submitVerificationCore (submitVerification s verifier vt cm).1 verifier vt cm).1 := by
    rw [submit_valid_eq _ verifier vt cm hne1 hvt]
  have hverifs : (submitVerification s verifier vt cm).1.verifications
      = upsertVerification s.verifications verifier vt cm := by
    rw [hs1, core_verifications]
  have hup : upsertVerification ((submitVerification s verifier vt cm).1.verifications)
      verifier vt cm = (submitVerification s verifier vt cm).1.verifications := by
    rw [hverifs]
    exact upsert_idem s.verifications verifier vt cm
  have hst1 : (submitVerification s verifier vt cm).1.entry.status =
      if vt = "accurate" then
        if 3 ≤ accurateCount (upsertVerification s.verifications verifier vt cm)
            ∧ s.entry.status = "pending" then "verified" else s.entry.status
      else if vt = "incorrect" then
        if 2 ≤ incorrectCount (upsertVerification s.verifications verifier vt cm)
          then "rejected" else s.entry.status
      else s.entry.status := by
    rw [hs1, core_status]
  refine ⟨?_, ?_, ?_⟩
  · rw [hs2, core_status, hup, hverifs]
    rcases hvt with hv | hv | hv
    · rw [if_pos hv]
      by_cases hc : 3 ≤ accurateCount (upsertVerification s.verifications verifier vt cm)
          ∧ (submitVerification s verifier vt cm).1.entry.status = "pending"
      · exfalso
        rw [if_pos hv] at hst1
        by_cases hc0 : 3 ≤ accurateCount (upsertVerification s.verifications verifier vt cm)
            ∧ s.entry.status = "pending"
        · rw [if_pos hc0] at hst1
          have hpend := hc.2
          rw [hst1] at hpend
          exact absurd hpend (by decide)
        · rw [if_neg hc0] at hst1
          refine hc0 ⟨hc.1, ?_⟩
          rw [← hst1]
          exact hc.2
      · rw [if_neg hc]
    · rw [if_neg (by rw [hv]; decide : ¬ vt = "accurate"),
         if_neg (by rw [hv]; decide : ¬ vt = "incorrect")]
    · rw [if_neg (by rw [hv]; decide : ¬ vt = "accurate"), if_pos hv]
      by_cases h2 : 2 ≤ incorrectCount (upsertVerification s.verifications verifier vt cm)
      · rw [if_pos h2]
        rw [if_neg (by rw [hv]; decide : ¬ vt = "accurate"), if_pos hv, if_pos h2] at hst1
        exact hst1.symm
      · rw [if_neg h2]
  · rw [hs2, core_verifications, hup]
  · rw [hs2]
    exact core_transactions_lt _ verifier vt cm

/-- C3 amended, witnessed at the concrete repeat of an accurate
verification on a fresh entry. -/
theorem submit_verification_repeat_characterization_witness :
    ((submitVerification (submitVerification freshV 1 "accurate" "c").1
        1 "accurate" "c").1.entry.status
      = (submitVerification freshV 1 "accurate" "c").1.entry.status) ∧
    ((submitVerification (submitVerification freshV 1 "accurate" "c").1
        1 "accurate" "c").1.verifications
      = (submitVerification freshV 1 "accurate" "c").1.verifications) ∧
    ((submitVerification freshV 1 "accurate" "c").1.g.transactions.length
      < (submitVerification (submitVerification freshV 1 "accurate" "c").1
          1 "accurate" "c").1.g.transactions.length) :=
  submit_verification_repeat_characterization freshV 1 "accurate" "c"
    (by decide) (Or.inl rfl)

/-- C5 counterexample: an entry that is already `verified` is pushed to
`rejected` by two incorrect verifications from users 1 and 2 — the terminal
`verified` state is left again, because the rejection branch never checks the
current status. -/
theorem verified_entry_rejected_by_incorrect :
    (runVerifs verifiedV [⟨1, "incorrect", ""⟩, ⟨2, "incorrect", ""⟩]).entry.status
      = "rejected" := by
  decide

/-- C5 amended: a verification submitted on an entry in a terminal status
always grants the verifier points, and leaves the status unchanged except
that an `incorrect` classification bringing the incorrect count to the
rejection threshold (re)sets the status to `rejected` — so a `verified`
entry can still fall to `rejected`, while a `rejected` entry stays
`rejected`. -/
theorem terminal_status_verification_characterization (s : VState)
    (verifier : UserId) (vt cm : String)
    (hterm : s.entry.status = "verified" ∨ s.entry.status = "rejected")
    (hne : verifier ≠ s.entry.contributor)
    (hvt : vt = "accurate" ∨ vt = "needs_revision" ∨ vt = "incorrect") :
    ((submitVerification s verifier vt cm).1.entry.status =
      if vt = "incorrect"
          ∧ 2 ≤ incorrectCount (upsertVerification s.verifications verifier vt cm)
        then "rejected" else s.entry.status) ∧
    (s.g.users verifier).points
      < ((submitVerification s verifier vt cm).1.g.users verifier).points := by
  rw [submit_valid_eq s verifier vt cm hne hvt]
  constructor
  · rw [core_status]
    have hnp : ¬ s.entry.status = "pending" := by
      rcases hterm with h | h <;> rw [h] <;> decide
    rcases hvt with hv | hv | hv
    · rw [if_pos hv,
         if_neg (fun hc => hnp hc.2),
         if_neg (fun hc : vt = "incorrect" ∧ _ => by
           rw [hv] at hc; exact absurd hc.1 (by decide))]
    · rw [if_neg (by rw [hv]; decide : ¬ vt = "accurate"),
         if_neg (by rw [hv]; decide : ¬ vt = "incorrect"),
         if_neg (fun hc : vt = "incorrect" ∧ _ => by
           rw [hv] at hc; exact absurd hc.1 (by decide))]
    · rw [if_neg (by rw [hv]; decide : ¬ vt = "accurate"), if_pos hv]
      by_cases h2 : 2 ≤ incorrectCount (upsertVerification s.verifications verifier vt cm)
      · rw [if_pos h2, if_pos ⟨hv, h2⟩]
      · rw [if_neg h2, if_neg (fun hc => h2 hc.2)]
  · exact core_verifier_points_gain s verifier vt cm hne

/-- C5 amended, witnessed on a verified entry receiving a needs_revision
verification from a non-contributor. -/
theorem terminal_status_verification_characterization_witness :
    ((submitVerification verifiedV 1 "needs_revision" "c").1.entry.status =
      if ("needs_revision" : String) = "incorrect"
          ∧ 2 ≤ incorrectCount (upsertVerification verifiedV.verifications 1 "needs_revision" "c")
        then "rejected" else verifiedV.entry.status) ∧
    (verifiedV.g.users 1).points
      < ((submitVerification verifiedV 1 "needs_revision" "c").1.g.users 1).points :=
  terminal_status_verification_characterization verifiedV 1 "needs_revision" "c"
    (Or.inl rfl) (by decide) (Or.inr (Or.inl rfl))

/-- C7: `award_points` is a no-op when the delta is zero; otherwise it
appends exactly the requested transaction, followed only by
`achievement`-tagged positive badge bonuses issued inside the badge pass,
adjusts the user's balance, and enters the badge evaluator exactly once when
the transaction type is not `achievement` and never when it is — the bonus
transactions of the pass never start a second pass, so evaluation ends after
a single pass. -/
theorem award_points_no_reentrant_badge_pass (g : GState) (u : UserId)
    (pts : Int) (t d : String) :
    (pts = 0 → awardPoints g u pts t d = g) ∧
    (pts ≠ 0 → ∃ txs : List Tx,
      (awardPoints g u pts t d).transactions = g.transactions ++ ⟨u, pts, t, d⟩ :: txs ∧
      (∀ tx ∈ txs, tx.user = u ∧ tx.ttype = "achievement" ∧ 0 < tx.points) ∧
      ((awardPoints g u pts t d).users u).points
        = (g.users u).points + pts + 2 * (txs.map Tx.points).sum ∧
      (awardPoints g u pts t d).evalPasses
        = g.evalPasses + (if t = "achievement" then 0 else 1) ∧
      (t = "achievement" → txs = [])) := by
  constructor
  · intro h0
    rw [h0]
    exact awardPoints_zero g u t d
  · intro h
    obtain ⟨txs, h1, h2, h3, -, h5, h6, -⟩ := awardPoints_spec g u pts t d h
    exact ⟨txs, h1, h2, h3, h5, h6⟩

/-- C7, witnessed: the zero case on a fresh store, and a 2-point vote award
to user 1. -/
theorem award_points_no_reentrant_badge_pass_witness :
    awardPoints emptyG 1 0 "vote" "d" = emptyG ∧
    ∃ txs : List Tx,
      (awardPoints emptyG 1 2 "vote" "d").transactions
        = emptyG.transactions ++ ⟨1, 2, "vote", "d"⟩ :: txs ∧
      (∀ tx ∈ txs, tx.user = 1 ∧ tx.ttype = "achievement" ∧ 0 < tx.points) ∧
      ((awardPoints emptyG 1 2 "vote" "d").users 1).points
        = (emptyG.users 1).points + 2 + 2 * (txs.map Tx.points).sum ∧
      (awardPoints emptyG 1 2 "vote" "d").evalPasses
        = emptyG.evalPasses + (if ("vote" : String) = "achievement" then 0 else 1) ∧
      (("vote" : String) = "achievement" → txs = []) :=
  ⟨(award_points_no_reentrant_badge_pass emptyG 1 0 "vote" "d").1 rfl,
   (award_points_no_reentrant_badge_pass emptyG 1 2 "vote" "d").2 (by decide)⟩

/-- C9 counterexample: touching the streak again on the same day 7 — a
no-op for the streak fields — still pays the 14-point weekly bonus a second
time, so the bonus is not granted only on the 7th consecutive day. -/
theorem same_day_streak_bonus_regrant :
    (updateUserStreak gStreak7 1).transactions
      = [⟨1, 14, "achievement", "7 day streak bonus!"⟩] ∧
    (updateUserStreak gStreak7 1).streaks 1 = ⟨7, 7, some 10⟩ := by
  decide

/-- C9 amended: the streak fields move exactly as the claim states (same day
is a streak no-op, yesterday increments, any larger gap or missing date
resets to 1, with the high-water mark and date maintained), but the
`achievement` bonus of twice the current streak is paid on every call whose
post-update current streak is a positive multiple of 7 — including repeated
same-day calls — and on no other call. -/
theorem touch_streak_characterization (g : GState) (u : UserId) :
    ((g.streaks u).last_contribution_date = some g.today →
      (updateUserStreak g u).streaks u = g.streaks u) ∧
    (∀ d, (g.streaks u).last_contribution_date = some d → d + 1 = g.today →
      (updateUserStreak g u).streaks u =
        ⟨(g.streaks u).current_streak + 1,
         max (g.streaks u).longest_streak ((g.streaks u).current_streak + 1),
         some g.today⟩) ∧
    ((g.streaks u).last_contribution_date = none →
      (updateUserStreak g u).streaks u
        = ⟨1, max (g.streaks u).longest_streak 1, some g.today⟩) ∧
    (∀ d, (g.streaks u).last_contribution_date = some d → d + 2 ≤ g.today →
      (updateUserStreak g u).streaks u
        = ⟨1, max (g.streaks u).longest_streak 1, some g.today⟩) ∧
    ((updateUserStreak g u).transactions = g.transactions ++
      (if 0 < (updateStreak (g.streaks u) g.today).current_streak ∧
          (updateStreak (g.streaks u) g.today).current_streak % 7 = 0 then
        [⟨u, ((updateStreak (g.streaks u) g.today).current_streak : Int) * 2,
          "achievement",
          toString (updateStreak (g.streaks u) g.today).current_streak
            ++ " day streak bonus!"⟩]
      else [])) := by
  refine ⟨?_, ?_, ?_, ?_, ?_⟩
  · intro hl
    rw [updateUserStreak_streaks_self, updateStreak, hl]
    simp
  · intro d hl hd
    rw [updateUserStreak_streaks_self, updateStreak, hl]
    have h0 : ¬ ((g.today : Int) - (d : Int) = 0) := by omega
    have h1 : ((g.today : Int) - (d : Int)) = 1 := by omega
    simp only [h1, if_neg h0]
    norm_num
  · intro hl
    rw [updateUserStreak_streaks_self, updateStreak, hl]
  · intro d hl hd
    rw [updateUserStreak_streaks_self, updateStreak, hl]
    have h0 : ¬ ((g.today : Int) - (d : Int) = 0) := by omega
    have h1 : ¬ ((g.today : Int) - (d : Int) = 1) := by omega
    simp [h0, h1]
  · simp only [updateUserStreak]
    split
    · next hb =>
      have hb' : 0 < (updateStreak (g.streaks u) g.today).current_streak ∧
          (updateStreak (g.streaks u) g.today).current_streak % 7 = 0 := by
        simpa [Bool.and_eq_true, decide_eq_true_eq, beq_iff_eq] using hb
      have hnz : ((updateStreak (g.streaks u) g.today).current_streak : Int) * 2 ≠ 0 := by
        have := hb'.1
        positivity
      obtain ⟨txs, h1, -, -, -, -, h6, -⟩ := awardPoints_spec _ u _ "achievement" _ hnz
      rw [h1, h6 rfl, if_pos hb']
    · next hb =>
      have hb' : ¬ (0 < (updateStreak (g.streaks u) g.today).current_streak ∧
          (updateStreak (g.streaks u) g.today).current_streak % 7 = 0) := by
        intro hc
        exact hb (by simp [Bool.and_eq_true, decide_eq_true_eq, beq_iff_eq, hc.1, hc.2])
      rw [if_neg hb']
      simp

/-- C9, witnessed: the yesterday-increment case on `gStreak3` and the
same-day no-op case on `gStreak7`. -/
theorem touch_streak_characterization_witness :
    (updateUserStreak gStreak3 1).streaks 1 = ⟨4, 4, some 10⟩ ∧
    (updateUserStreak gStreak7 1).streaks 1 = gStreak7.streaks 1 :=
  ⟨(touch_streak_characterization gStreak3 1).2.1 9 rfl (by decide),
   (touch_streak_characterization gStreak7 1).1 rfl⟩

/-- C10: the badge evaluator's per-badge check is a first-match `elif`
chain over points, contributions, verifications and the special predicate,
and because each link falls through on failure the badge is earned exactly
when ANY single one of its nonzero thresholds (or its special predicate) is
satisfied — not when all of them hold together. -/
theorem badge_earned_iff_any_threshold (g : GState) (u : UserId) (b : Badge) :
    badgeEarned g u b = true ↔
      (0 < b.points_required ∧ (b.points_required : Int) ≤ (g.users u).points) ∨
      (0 < b.contributions_required
        ∧ b.contributions_required ≤ (g.users u).contributions_count) ∨
      (0 < b.verifications_required
        ∧ b.verifications_required ≤ (g.users u).verifications_count) ∨
      (b.badge_type = "special" ∧ checkSpecialBadgeCriteria g u b = true) := by
  simp only [badgeEarned, Bool.and_eq_true, decide_eq_true_eq, beq_iff_eq, gt_iff_lt,
    ge_iff_le]
  split_ifs with h1 h2 h3 h4
  · simp only [true_iff]
    exact Or.inl h1
  · simp only [true_iff]
    exact Or.inr (Or.inl h2)
  · simp only [true_iff]
    exact Or.inr (Or.inr (Or.inl h3))
  · constructor
    · intro hc
      exact Or.inr (Or.inr (Or.inr ⟨h4, hc⟩))
    · intro hd
      rcases hd with h | h | h | h
      · exact absurd h h1
      · exact absurd h h2
      · exact absurd h h3
      · exact h.2
  · constructor
    · intro hf
      exact absurd hf (by decide)
    · intro hd
      rcases hd with h | h | h | h
      · exact absurd h h1
      · exact absurd h h2
      · exact absurd h h3
      · exact absurd h.1 h4

theorem fire_step_verified (s : VState) (op : VOp) (h : fireVerify s op) :
    (stepVerify s op).entry.status = "verified" := by
  obtain ⟨hp, ha, hne, hcnt⟩ := h
  unfold stepVerify
  rw [submit_valid_eq s op.verifier op.vtype op.comments hne (Or.inl ha), core_status,
     if_pos ha, if_pos ⟨hcnt, hp⟩]

theorem step_verified_source (s : VState) (op : VOp)
    (h : (stepVerify s op).entry.status = "verified") :
    fireVerify s op ∨ s.entry.status = "verified" := by
  unfold stepVerify at h
  by_cases hself : op.verifier = s.entry.contributor
  · rw [submitVerification, if_pos hself] at h
    exact Or.inr h
  by_cases hvt : op.vtype = "accurate" ∨ op.vtype = "needs_revision"
      ∨ op.vtype = "incorrect"
  · rw [submit_valid_eq s _ _ _ hself hvt, core_status] at h
    rcases hvt with hv | hv | hv
    · rw [if_pos hv] at h
      by_cases hc : 3 ≤ accurateCount
            (upsertVerification s.verifications op.verifier op.vtype op.comments)
          ∧ s.entry.status = "pending"
      · exact Or.inl ⟨hc.2, hv, hself, hc.1⟩
      · rw [if_neg hc] at h
        exact Or.inr h
    · rw [if_neg (by rw [hv]; decide : ¬ op.vtype = "accurate"),
         if_neg (by rw [hv]; decide : ¬ op.vtype = "incorrect")] at h
      exact Or.inr h
    · rw [if_neg (by rw [hv]; decide : ¬ op.vtype = "accurate"), if_pos hv] at h
      by_cases h2 : 2 ≤ incorrectCount
          (upsertVerification s.verifications op.verifier op.vtype op.comments)
      · rw [if_pos h2] at h
        exact absurd h (by decide)
      · rw [if_neg h2] at h
        exact Or.inr h
  · push_neg at hvt
    rw [submitVerification, if_neg hself,
       if_pos (by simp [hvt.1, hvt.2.1, hvt.2.2])] at h
    exact Or.inr h

theorem reachesVerified_cons (s : VState) (op : VOp) (ops : List VOp) :
    reachesVerified s (op :: ops) ↔
      s.entry.status = "verified" ∨ reachesVerified (stepVerify s op) ops := by
  unfold reachesVerified
  constructor
  · rintro ⟨i, hi, hst⟩
    cases i with
    | zero => exact Or.inl hst
    | succ j =>
      refine Or.inr ⟨j, ?_, ?_⟩
      · simp only [List.length_cons] at hi
        omega
      · rw [List.take_succ_cons] at hst
        exact hst
  · rintro (h | ⟨j, hj, hst⟩)
    · exact ⟨0, Nat.zero_le _, h⟩
    · refine ⟨j + 1, ?_, ?_⟩
      · simp only [List.length_cons]
        omega
      · rw [List.take_succ_cons]
        exact hst

/-- C4: over any sequence of verification submissions, the entry is in
`verified` status at some point exactly when it started `verified` or some
submission is an accurate classification by a non-contributor that brings
the recomputed accurate count to the threshold 3 while the entry is still
`pending` — regardless of how needs_revision or incorrect submissions are
interleaved. -/
theorem entry_verified_iff_threshold (s : VState) (ops : List VOp) :
    reachesVerified s ops ↔
      s.entry.status = "verified" ∨
      ∃ i, ∃ h : i < ops.length,
        fireVerify (runVerifs s (ops.take i)) (ops.get ⟨i, h⟩) := by
  induction ops generalizing s with
  | nil =>
    unfold reachesVerified
    constructor
    · rintro ⟨i, hi, hst⟩
      obtain rfl : i = 0 := Nat.le_zero.mp hi
      exact Or.inl hst
    · rintro (h | ⟨i, hi, -⟩)
      · exact ⟨0, Nat.le_refl 0, h⟩
      · exact absurd hi (Nat.not_lt_zero i)
  | cons op ops ih =>
    rw [reachesVerified_cons, ih (stepVerify s op)]
    constructor
    · rintro (h | h | ⟨j, hj, hf⟩)
      · exact Or.inl h
      · rcases step_verified_source s op h with hf | hv
        · exact Or.inr ⟨0, by simp, hf⟩
        · exact Or.inl hv
      · refine Or.inr ⟨j + 1, ?_, ?_⟩
        · simp only [List.length_cons]
          omega
        · exact hf
    · rintro (h | ⟨i, hi, hf⟩)
      · exact Or.inl h
      · cases i with
        | zero =>
          exact Or.inr (Or.inl (fire_step_verified s op hf))
        | succ j =>
          refine Or.inr (Or.inr ⟨j, ?_, hf⟩)
          simp only [List.length_cons] at hi
          omega

end Kolokwa
